import Mathlib

/-!
Verification of the DeFi credit-score generator
(`src/credit_score_generator.py`) against its specification.

The pipeline is embedded shallowly:

* a transaction record becomes the structure `Txn` (timestamps are integer
  milliseconds since the epoch, amounts are `Option Rat` — `none` models a
  missing or unparsable `actionData.amount`, which the source coerces to 0);
* the per-wallet aggregation of `engineer_wallet_features` becomes a family
  of pure functions over `List Txn` plus the assembled row
  `engineer_wallet_features_row`;
* DataFrame column manipulation (the wallet-identity normalizer, the
  in-place mutation of the frame passed to `engineer_wallet_features`, and
  the feature-schema alignment) is modelled on association lists of
  column names;
* the frozen scaler / PCA / k-means scoring chain of
  `generate_wallet_scores_from_json` is modelled over `Rat` with explicit
  matrix arithmetic; the only operation that has no exact rational
  counterpart, the square root inside the sample standard deviation, is
  passed in as a parameter `rsqrt`, so every theorem holds for the true
  real square root in particular.

Floats are idealised as rationals; `NaN`/`inf` clean-up steps of the source
are noted where they occur (division by zero yields 0 in `Rat`, which
coincides with the source's replace-inf-by-0 clamps at the places they
fire).
-/

set_option autoImplicit false

namespace CreditScore

/-- A raw transaction record, after JSON parsing.  `amount` is the value of
`actionData.amount` if present and numerically parsable (`pd.to_numeric`
with coercion), else `none`; `assetSymbol` is `actionData.assetSymbol` if
present, else `none` (the source substitutes the sentinel `"UNKNOWN"`). -/
structure Txn where
  wallet : String
  timestampMs : Int
  action : String
  amount : Option Rat
  assetSymbol : Option String
  deriving Repr, DecidableEq

/-- `transactions_df['amount_numeric']`: unparsable or missing amounts are
coerced to `NaN` and then filled with 0. -/
def amountNumeric (t : Txn) : Rat := t.amount.getD 0

/-- `transactions_df['token_extracted']`: missing asset symbols default to
the sentinel `"UNKNOWN"`. -/
def tokenExtracted (t : Txn) : String := t.assetSymbol.getD "UNKNOWN"

/-- Milliseconds per calendar day. -/
def msPerDay : Int := 86400000

/-- `transactions_df['date']`: the calendar date of a timestamp, as a day
number (floor division of epoch milliseconds, matching
`pd.to_datetime(..., unit='ms').dt.date`). -/
def dateOf (t : Txn) : Int := t.timestampMs.fdiv msPerDay

/-- The rows of the batch belonging to one wallet
(one group of `groupby('walletaddress')`). -/
def txsOf (b : List Txn) (w : String) : List Txn :=
  b.filter (fun t => t.wallet == w)

/-- The distinct wallets of the batch (the group keys of
`groupby('walletaddress')`). -/
def walletsOf (b : List Txn) : List String :=
  (b.map (fun t => t.wallet)).dedup

/-- Maximum of a list of integers, 0 for the empty list (the source only
takes maxima of non-empty groups). -/
def listMax : List Int → Int
  | [] => 0
  | x :: xs => xs.foldl max x

/-- Minimum of a list of integers, 0 for the empty list. -/
def listMin : List Int → Int
  | [] => 0
  | x :: xs => xs.foldl min x

/-! ### Per-wallet aggregates of `engineer_wallet_features` -/

/-- `total_transactions`: `('action', 'count')`. -/
def totalTransactions (b : List Txn) (w : String) : Nat :=
  (txsOf b w).length

/-- The calendar dates of a wallet's transactions. -/
def walletDates (b : List Txn) (w : String) : List Int :=
  (txsOf b w).map dateOf

/-- `active_days`: number of distinct calendar dates. -/
def activeDays (b : List Txn) (w : String) : Nat :=
  (walletDates b w).dedup.length

/-- `duration_days`: `(x.max() - x.min()).days + 1 if x.nunique() > 1 else 1`
over the wallet's dates. -/
def durationDays (b : List Txn) (w : String) : Int :=
  if 1 < (walletDates b w).dedup.length then
    (listMax (walletDates b w) - listMin (walletDates b w)) + 1
  else 1

/-- `transactions_per_day = total_transactions / duration_days`.  The source
then replaces `±inf` (division by a zero duration) with 0; in `Rat`,
division by zero already yields 0, so the clamp is the identity here. -/
def transactionsPerDay (b : List Txn) (w : String) : Rat :=
  (totalTransactions b w : Rat) / (durationDays b w : Rat)

/-- The wallet's transaction timestamps (milliseconds). -/
def walletTimestamps (b : List Txn) (w : String) : List Int :=
  (txsOf b w).map (fun t => t.timestampMs)

/-- `first_transaction_date`: `('timestamp', 'min')`. -/
def firstTransaction (b : List Txn) (w : String) : Int :=
  listMin (walletTimestamps b w)

/-- `last_transaction_date`: `('timestamp', 'max')`. -/
def lastTransaction (b : List Txn) (w : String) : Int :=
  listMax (walletTimestamps b w)

/-- `unique_tokens_interacted`: distinct extracted asset symbols. -/
def uniqueTokensInteracted (b : List Txn) (w : String) : Nat :=
  ((txsOf b w).map tokenExtracted).dedup.length

/-- Insertion of an element into a sorted list of integers (ascending). -/
def insertSorted (x : Int) : List Int → List Int
  | [] => [x]
  | y :: ys => if x ≤ y then x :: y :: ys else y :: insertSorted x ys

/-- Ascending sort (`timestamps.sort_values()`). -/
def sortInts (l : List Int) : List Int := l.foldr insertSorted []

/-- Consecutive differences (`timestamps - timestamps.shift(1)`, dropping
the leading `NaT`). -/
def consecutiveDiffs : List Int → List Int
  | [] => []
  | [_] => []
  | x :: y :: rest => (y - x) :: consecutiveDiffs (y :: rest)

/-- `avg_time_between_tx_hours`: mean of consecutive sorted timestamp gaps,
converted from milliseconds to hours; 0.0 with fewer than 2 transactions. -/
def avgTimeBetweenTxHours (b : List Txn) (w : String) : Rat :=
  let ts := sortInts (walletTimestamps b w)
  if 1 < ts.length then
    (((consecutiveDiffs ts).map (fun d => (d : Rat))).sum
      / ((consecutiveDiffs ts).length : Rat)) / 3600000
  else 0

/-- `latest_overall_transaction`: the batch-global latest timestamp. -/
def latestOverall (b : List Txn) : Int :=
  listMax (b.map (fun t => t.timestampMs))

/-- `last_transaction_recency_days`: `(latest_overall -
last_transaction_date).dt.days` — whole days via floor division. -/
def lastTransactionRecencyDays (b : List Txn) (w : String) : Int :=
  (latestOverall b - lastTransaction b w).fdiv msPerDay

/-! ### Financial aggregates (the `pivot_table` block) -/

/-- The wallet's transactions of one action kind. -/
def actionTxs (b : List Txn) (w : String) (a : String) : List Txn :=
  (txsOf b w).filter (fun t => t.action == a)

/-- The pivot's `sum_<action>` cell: if the action occurs nowhere in the
batch the pivot has no such column and the `financial_cols` loop installs
the constant 0.0; otherwise the per-wallet sum with `fillna(0)`. -/
def pivotSumAmount (b : List Txn) (a : String) (w : String) : Rat :=
  if (b.map (fun t => t.action)).contains a then
    ((actionTxs b w a).map amountNumeric).sum
  else 0

/-- The pivot's `count_<action>` cell, with the same absent-column rule. -/
def pivotCount (b : List Txn) (a : String) (w : String) : Nat :=
  if (b.map (fun t => t.action)).contains a then
    (actionTxs b w a).length
  else 0

def totalDepositAmount (b : List Txn) (w : String) : Rat := pivotSumAmount b "deposit" w
def totalBorrowAmount (b : List Txn) (w : String) : Rat := pivotSumAmount b "borrow" w
def totalRepayAmount (b : List Txn) (w : String) : Rat := pivotSumAmount b "repay" w
def totalRedeemAmount (b : List Txn) (w : String) : Rat := pivotSumAmount b "redeemunderlying" w
def totalLiquidationCallAmount (b : List Txn) (w : String) : Rat := pivotSumAmount b "liquidationcall" w
def countDeposit (b : List Txn) (w : String) : Nat := pivotCount b "deposit" w
def countBorrow (b : List Txn) (w : String) : Nat := pivotCount b "borrow" w
def countRepay (b : List Txn) (w : String) : Nat := pivotCount b "repay" w
def countRedeemunderlying (b : List Txn) (w : String) : Nat := pivotCount b "redeemunderlying" w
def countLiquidationcall (b : List Txn) (w : String) : Nat := pivotCount b "liquidationcall" w

/-- `avg_deposit_amount = np.where(count > 0, total / count, 0)`. -/
def avgDepositAmount (b : List Txn) (w : String) : Rat :=
  if 0 < countDeposit b w then totalDepositAmount b w / (countDeposit b w : Rat) else 0

def avgBorrowAmount (b : List Txn) (w : String) : Rat :=
  if 0 < countBorrow b w then totalBorrowAmount b w / (countBorrow b w : Rat) else 0

def avgRepayAmount (b : List Txn) (w : String) : Rat :=
  if 0 < countRepay b w then totalRepayAmount b w / (countRepay b w : Rat) else 0

def avgRedeemAmount (b : List Txn) (w : String) : Rat :=
  if 0 < countRedeemunderlying b w then
    totalRedeemAmount b w / (countRedeemunderlying b w : Rat)
  else 0

/-- The `epsilon = 1e-9` guard of the behavioral ratios. -/
def epsilon : Rat := 1 / 1000000000

def borrowToDepositRatio (b : List Txn) (w : String) : Rat :=
  totalBorrowAmount b w / (totalDepositAmount b w + epsilon)

def repayToBorrowRatio (b : List Txn) (w : String) : Rat :=
  totalRepayAmount b w / (totalBorrowAmount b w + epsilon)

def redeemToDepositRatio (b : List Txn) (w : String) : Rat :=
  totalRedeemAmount b w / (totalDepositAmount b w + epsilon)

def netBorrowRepay (b : List Txn) (w : String) : Rat :=
  totalBorrowAmount b w - totalRepayAmount b w

/-- Sample variance (`ddof = 1`, as in pandas `Series.std` squared). -/
def sampleVariance (l : List Rat) : Rat :=
  let n : Rat := (l.length : Rat)
  let mean := l.sum / n
  (l.map (fun x => (x - mean) ^ 2)).sum / (n - 1)

/-- `safe_std` over the wallet's amounts of one action, through the
`(walletaddress, action)` groupby and `unstack(fill_value=0)`: the sample
standard deviation when the wallet has more than one transaction of the
action, else 0.  The square root has no exact rational value, so it is
supplied as the parameter `rsqrt`; instantiating `rsqrt` with the real
square root recovers pandas `.std()`. -/
def stdAmount (rsqrt : Rat → Rat) (b : List Txn) (a : String) (w : String) : Rat :=
  let amts := (actionTxs b w a).map amountNumeric
  if 1 < amts.length then rsqrt (sampleVariance amts) else 0

/-! ### The assembled wallet feature row

The columns of `wallet_features` in the order the source creates them;
`first_transaction_date` / `last_transaction_date` are created and later
dropped (`drop(columns=[...])`), which the `filter` below reproduces. -/

/-- The full `wallet_features` row before the date columns are dropped.
Datetime cells are represented by their epoch-millisecond value. -/
def walletFeaturesFullRow (rsqrt : Rat → Rat) (b : List Txn) (w : String) :
    List (String × Rat) :=
  [("total_transactions", (totalTransactions b w : Rat)),
   ("active_days", (activeDays b w : Rat)),
   ("duration_days", (durationDays b w : Rat)),
   ("first_transaction_date", (firstTransaction b w : Rat)),
   ("last_transaction_date", (lastTransaction b w : Rat)),
   ("unique_tokens_interacted", (uniqueTokensInteracted b w : Rat)),
   ("transactions_per_day", transactionsPerDay b w),
   ("avg_time_between_tx_hours", avgTimeBetweenTxHours b w),
   ("last_transaction_recency_days", (lastTransactionRecencyDays b w : Rat)),
   ("total_deposit_amount", totalDepositAmount b w),
   ("total_borrow_amount", totalBorrowAmount b w),
   ("total_repay_amount", totalRepayAmount b w),
   ("total_redeem_amount", totalRedeemAmount b w),
   ("total_liquidation_call_amount", totalLiquidationCallAmount b w),
   ("count_deposit", (countDeposit b w : Rat)),
   ("count_borrow", (countBorrow b w : Rat)),
   ("count_repay", (countRepay b w : Rat)),
   ("count_redeemunderlying", (countRedeemunderlying b w : Rat)),
   ("count_liquidationcall", (countLiquidationcall b w : Rat)),
   ("avg_deposit_amount", avgDepositAmount b w),
   ("avg_borrow_amount", avgBorrowAmount b w),
   ("avg_repay_amount", avgRepayAmount b w),
   ("avg_redeem_amount", avgRedeemAmount b w),
   ("borrow_to_deposit_ratio", borrowToDepositRatio b w),
   ("repay_to_borrow_ratio", repayToBorrowRatio b w),
   ("redeem_to_deposit_ratio", redeemToDepositRatio b w),
   ("net_borrow_repay", netBorrowRepay b w),
   ("std_deposit_amount", stdAmount rsqrt b "deposit" w),
   ("std_borrow_amount", stdAmount rsqrt b "borrow" w),
   ("std_repay_amount", stdAmount rsqrt b "repay" w)]

/-- The returned `wallet_features` row of `engineer_wallet_features`, after
dropping the two date columns. -/
def engineer_wallet_features_row (rsqrt : Rat → Rat) (b : List Txn) (w : String) :
    List (String × Rat) :=
  (walletFeaturesFullRow rsqrt b w).filter
    (fun p => !(p.1 == "first_transaction_date" || p.1 == "last_transaction_date"))

/-- The column schema of the aggregator's output, in source order. -/
def walletFeatureColumns : List String :=
  ["total_transactions", "active_days", "duration_days",
   "unique_tokens_interacted", "transactions_per_day",
   "avg_time_between_tx_hours", "last_transaction_recency_days",
   "total_deposit_amount", "total_borrow_amount", "total_repay_amount",
   "total_redeem_amount", "total_liquidation_call_amount",
   "count_deposit", "count_borrow", "count_repay", "count_redeemunderlying",
   "count_liquidationcall",
   "avg_deposit_amount", "avg_borrow_amount", "avg_repay_amount",
   "avg_redeem_amount",
   "borrow_to_deposit_ratio", "repay_to_borrow_ratio",
   "redeem_to_deposit_ratio", "net_borrow_repay",
   "std_deposit_amount", "std_borrow_amount", "std_repay_amount"]

/-! ### The wallet-identity normalizer (lines 190–203 of the source)

A DataFrame is modelled as an association list from column name to the
column's values (one value per row; the value type is kept abstract as
`String` because only identity columns are manipulated here). -/

/-- A DataFrame viewed as its columns. -/
abbrev Frame : Type := List (String × List String)

/-- Whether a frame has a column. -/
def Frame.hasCol (df : Frame) (c : String) : Bool :=
  (List.map Prod.fst df).contains c

/-- The wallet-identity fix of `generate_wallet_scores_from_json`:
use `walletaddress` if present; else rename `userWallet` to it; else copy
`from` into it (with a printed warning); else raise a `KeyError`. -/
def normalizeFrame (df : Frame) : Except String Frame :=
  if df.hasCol "walletaddress" then .ok df
  else if df.hasCol "userWallet" then
    .ok (df.map (fun p => if p.1 == "userWallet" then ("walletaddress", p.2) else p))
  else if df.hasCol "from" then
    .ok (df ++ [("walletaddress",
      (Option.map Prod.snd (df.find? (fun p => p.1 == "from"))).getD [])])
  else
    .error "Input JSON must contain walletaddress, userWallet, or from column to identify wallets."

/-! ### In-place column mutation of `engineer_wallet_features`

`engineer_wallet_features` mutates the DataFrame it receives: its own
rename/fallback block (lines 14–28), the `timestamp` overwrite, and the
derived working columns `date`, `amount_extracted`, `token_extracted`,
`amount_numeric` (lines 31–48).  Modelled at the level of the column list
of the frame passed in. -/

/-- Column assignment `df[name] = ...`: appends the column if absent,
overwrites in place (leaving the column list unchanged) if present. -/
def addCol (cols : List String) (c : String) : List String :=
  if cols.contains c then cols else cols ++ [c]

/-- The columns of the frame given to `engineer_wallet_features`, after the
function has run (the frame is mutated in place). -/
def engineerBatchColumns (cols : List String) : List String :=
  let cols1 :=
    if cols.contains "userWallet" then
      cols.map (fun c => if c == "userWallet" then "walletaddress" else c)
    else if !cols.contains "walletaddress" && cols.contains "from" then
      cols ++ ["walletaddress"]
    else cols
  addCol (addCol (addCol (addCol (addCol cols1 "timestamp") "date")
    "amount_extracted") "token_extracted") "amount_numeric"

/-! ### Feature-schema alignment (lines 231–245 of the source) -/

/-- Whether a feature row has a column. -/
def hasFeature (row : List (String × Rat)) (c : String) : Bool :=
  row.any (fun p => p.1 == c)

/-- `for c in missing: df[c] = 0.0` — every trained column absent from the
row is appended with the constant 0.0. -/
def addMissingCols (trained : List String) (row : List (String × Rat)) :
    List (String × Rat) :=
  row ++ (trained.filter (fun c => !hasFeature row c)).map (fun c => (c, (0 : Rat)))

/-- `df.drop(columns=extra)` — every column outside the trained schema is
dropped. -/
def dropExtraCols (trained : List String) (row : List (String × Rat)) :
    List (String × Rat) :=
  row.filter (fun p => trained.contains p.1)

/-- `df[trained_feature_columns]` — reorder/select to the exact trained
sequence; raises a `KeyError` (caught by the source, which then returns
`{}`) if a requested column is absent. -/
def selectCols (trained : List String) (row : List (String × Rat)) :
    Except String (List (String × Rat)) :=
  if trained.all (fun c => hasFeature row c) then
    .ok (trained.map (fun c =>
      (c, (Option.map Prod.snd (row.find? (fun p => p.1 == c))).getD 0)))
  else .error "KeyError"

/-- The full alignment step: add missing trained columns with 0.0, drop
extra columns, then select in trained order. -/
def alignFeatures (trained : List String) (row : List (String × Rat)) :
    Except String (List (String × Rat)) :=
  selectCols trained (dropExtraCols trained (addMissingCols trained row))

/-! ### The frozen scoring chain (lines 247–293 of the source) -/

/-- Trained standardization parameters (`scaler.pkl`):
`transform` computes `(x - mean) / scale` per column. -/
structure Scaler where
  mean : List Rat
  scale : List Rat
  deriving Repr, DecidableEq

def Scaler.transform (s : Scaler) (row : List Rat) : List Rat :=
  (row.zip (s.mean.zip s.scale)).map (fun p => (p.1 - p.2.1) / p.2.2)

/-- Dot product of two rows (zip-truncated). -/
def dotList (a c : List Rat) : Rat :=
  ((a.zip c).map (fun p => p.1 * p.2)).sum

/-- Trained PCA parameters (`pca.pkl`): `transform` computes
`(x - mean_) @ components_.T`; `n_components_` is the number of retained
components, i.e. `components.length`. -/
structure PCAT where
  mean : List Rat
  components : List (List Rat)
  deriving Repr, DecidableEq

def PCAT.nComponents (p : PCAT) : Nat := p.components.length

def PCAT.transform (p : PCAT) (row : List Rat) : List Rat :=
  p.components.map (fun comp =>
    dotList ((row.zip p.mean).map (fun q => q.1 - q.2)) comp)

/-- Squared Euclidean distance (zip-truncated). -/
def sqDist (a c : List Rat) : Rat :=
  ((a.zip c).map (fun p => (p.1 - p.2) ^ 2)).sum

/-- Index of the first minimal element (ties broken toward the smaller
index, as in `np.argmin`). -/
def argminIdx (l : List Rat) : Nat :=
  match l with
  | [] => 0
  | x :: xs =>
    (xs.foldl (fun acc d =>
      match acc with
      | (bi, bv, i) => if d < bv then (i, d, i + 1) else (bi, bv, i + 1))
      ((0 : Nat), x, (1 : Nat))).1

/-- Trained k-means model (`kmeans_model.pkl` when it is not `None`):
`predict` assigns the index of the nearest centroid. -/
structure KMeansT where
  centroids : List (List Rat)
  deriving Repr, DecidableEq

def KMeansT.predict (k : KMeansT) (x : List Rat) : Nat :=
  argminIdx (k.centroids.map (sqDist x))

/-- One entry of the cluster→score-range table
(`cluster_score_mapping.pkl`). -/
structure ScoreRange where
  min : Int
  max : Int
  deriving Repr, DecidableEq

/-- Python's `round`: round half to even on the exact value. -/
def pyRound (q : Rat) : Int :=
  let f := q.floor
  let r := q - (f : Rat)
  if r < 1 / 2 then f
  else if 1 / 2 < r then f + 1
  else if f % 2 = 0 then f else f + 1

/-- Lines 285–290: look the cluster id up in the table; if found, emit
`int(round((min + max) / 2))`, else the neutral fallback 500. -/
def assignScore (table : List (Nat × ScoreRange)) (cid : Nat) : Int :=
  match table.find? (fun p => p.1 == cid) with
  | some p => pyRound (((p.2.min : Rat) + (p.2.max : Rat)) / 2)
  | none => 500

/-- The five artifacts of the Trained Artifact Bundle.  The persisted
k-means artifact may itself hold `None` (the source's
`if kmeans_model is None` branch), hence the inner `Option`. -/
structure Bundle where
  scaler : Scaler
  pca : PCAT
  kmeansModel : Option KMeansT
  clusterScoreMapping : List (Nat × ScoreRange)
  trainedFeatureColumns : List String
  deriving Repr, DecidableEq

/-- The artifact store (`models_dir`): each of the five artifacts either
loads to a value or fails (missing file / unpicklable). -/
structure ArtifactStore where
  scaler : Option Scaler
  pca : Option PCAT
  kmeansModel : Option (Option KMeansT)
  clusterScoreMapping : Option (List (Nat × ScoreRange))
  trainedFeatureColumns : Option (List String)
  deriving Repr, DecidableEq

/-- Lines 205–219: load the five artifacts; any failure makes the whole
load fail (the source then prints which artifact is missing and returns
the empty dict). -/
def loadBundle (s : ArtifactStore) : Option Bundle :=
  match s.scaler, s.pca, s.kmeansModel, s.clusterScoreMapping,
      s.trainedFeatureColumns with
  | some sc, some pc, some km, some m, some cols => some ⟨sc, pc, km, m, cols⟩
  | _, _, _, _, _ => none

/-- Steps 5–7 of `generate_wallet_scores_from_json` on the aligned feature
matrix: the `empty / shape[1] == 0` guard, scaling, the
`pca.n_components_ == 0` branch, projection (the `== 1` reshape does not
change the values), the `kmeans_model is None` branch, prediction, and the
cluster→score mapping loop. -/
def scoreAligned (bundle : Bundle) (rows : List (String × List Rat)) :
    List (String × Int) :=
  if rows.isEmpty || bundle.trainedFeatureColumns.isEmpty then []
  else
    let scaled := rows.map (fun p => (p.1, bundle.scaler.transform p.2))
    if bundle.pca.nComponents = 0 then
      rows.map (fun p => (p.1, (500 : Int)))
    else
      let proj := scaled.map (fun p => (p.1, bundle.pca.transform p.2))
      if proj.isEmpty then []
      else
        match bundle.kmeansModel with
        | none => rows.map (fun p => (p.1, (500 : Int)))
        | some km =>
          proj.map (fun p =>
            (p.1, assignScore bundle.clusterScoreMapping (km.predict p.2)))

/-- Alignment applied to every wallet's row. -/
def alignTable (trained : List String) (rows : List (String × List (String × Rat))) :
    Except String (List (String × List Rat)) :=
  rows.mapM (fun p => (alignFeatures trained p.2).map (fun r => (p.1, r.map Prod.snd)))

/-- `generate_wallet_scores_from_json`, after JSON parsing (file I/O is the
out-of-scope Batch Loader).  The batch is given in two views: `df`, the
raw DataFrame columns the identity fix inspects, and `txns`, the typed
records the aggregator consumes once the wallet identity is resolved.
The result is `.error` exactly where the source raises (the identity
`KeyError`), and `.ok` with the scores dict otherwise — in particular the
source returns the plain empty dict `{}` when an artifact fails to load or
when the column selection fails. -/
def generate_wallet_scores_from_json (rsqrt : Rat → Rat) (df : Frame)
    (txns : List Txn) (store : ArtifactStore) : Except String (List (String × Int)) :=
  if txns.isEmpty then .ok []
  else
    match normalizeFrame df with
    | .error e => .error e
    | .ok _dfNorm =>
      match loadBundle store with
      | none => .ok []
      | some bundle =>
        let feats := (walletsOf txns).map
          (fun w => (w, engineer_wallet_features_row rsqrt txns w))
        if feats.isEmpty then .ok []
        else
          match alignTable bundle.trainedFeatureColumns feats with
          | .error _ => .ok []
          | .ok aligned => .ok (scoreAligned bundle aligned)

/-- The value the aligned row gets at a trained column: the row's first
value under that name, 0 when the column is absent. -/
def rowValue (row : List (String × Rat)) (c : String) : Rat :=
  (Option.map Prod.snd (row.find? (fun p => p.1 == c))).getD 0

/-- The column rename `userWallet → walletaddress`. -/
def renameUserWallet (df : Frame) : Frame :=
  df.map (fun p => if p.1 == "userWallet" then ("walletaddress", p.2) else p)

/-! ### Example data used by concrete evaluations -/

def exTxA : Txn := ⟨"0xA", 0, "deposit", some 100, some "USDC"⟩
def exTxB : Txn := ⟨"0xB", 3600000, "repay", some 50, none⟩

/-- A two-transaction batch: a deposit of 100 by `0xA` at t = 0 and a
repay of 50 by `0xB` at t = 3600000 ms. -/
def exampleBatch : List Txn := [exTxA, exTxB]

def exampleFrame : Frame :=
  [("userWallet", ["0xA", "0xB"]), ("timestamp", ["0", "3600000"]),
   ("action", ["deposit", "repay"]), ("actionData", ["d1", "d2"])]

def exampleScaler : Scaler := ⟨[0], [1]⟩

/-- A trained PCA artifact that retained zero components. -/
def examplePCA0 : PCAT := ⟨[0], []⟩

/-- A trained PCA artifact with one retained component. -/
def examplePCA1 : PCAT := ⟨[0], [[1]]⟩

def exampleKM : KMeansT := ⟨[[0], [10]]⟩

/-- The spec's example cluster-score table:
`{0: {min:300, max:500}, 1: {min:600, max:800}}`. -/
def exampleClusterTable : List (Nat × ScoreRange) :=
  [(0, ⟨300, 500⟩), (1, ⟨600, 800⟩)]

def exampleBundle0 : Bundle :=
  ⟨exampleScaler, examplePCA0, some exampleKM, exampleClusterTable, ["f1"]⟩

def exampleBundleKM : Bundle :=
  ⟨exampleScaler, examplePCA1, some exampleKM, exampleClusterTable, ["f1"]⟩

/-- A degenerate bundle: zero-component PCA AND an empty trained
feature-column list. -/
def exampleBundleNoCols : Bundle :=
  ⟨exampleScaler, examplePCA0, some exampleKM, exampleClusterTable, []⟩

def exampleStoreMissingScaler : ArtifactStore :=
  ⟨none, some examplePCA1, some (some exampleKM), some exampleClusterTable,
   some ["f1"]⟩

def exampleStoreMissingPCA : ArtifactStore :=
  ⟨some exampleScaler, none, some (some exampleKM), some exampleClusterTable,
   some ["f1"]⟩

/-- The scoring pipeline's own DataFrame around the aggregator call: the
source passes `transactions_df_input.copy()` to `engineer_wallet_features`
(line 225), so the in-place mutation acts on the copy and the pipeline's
frame stays what the identity fix produced. -/
def pipelineFrameAfterEngineering (df : Frame) : Except String Frame :=
  (normalizeFrame df).map (fun dfn =>
    let copyCols := dfn.map Prod.fst
    let _mutatedCopy := engineerBatchColumns copyCols
    dfn)

/-! ### Helper lemmas -/

theorem engineer_wallet_features_row_columns (rsqrt : Rat → Rat)
    (b : List Txn) (w : String) :
    (engineer_wallet_features_row rsqrt b w).map Prod.fst = walletFeatureColumns := by
  rfl


theorem le_foldl_max (xs : List Int) : ∀ x : Int, x ≤ xs.foldl max x := by
  induction xs with
  | nil => intro x; exact le_refl x
  | cons y ys ih => intro x; exact le_trans (le_max_left x y) (ih (max x y))

theorem mem_le_foldl_max (xs : List Int) :
    ∀ (x a : Int), a ∈ xs → a ≤ xs.foldl max x := by
  induction xs with
  | nil => intro x a h; cases h
  | cons y ys ih =>
    intro x a h
    rcases List.mem_cons.mp h with h' | h'
    · subst h'
      exact le_trans (le_max_right x a) (le_foldl_max ys (max x a))
    · exact ih (max x y) a h'

theorem foldl_max_mem (xs : List Int) :
    ∀ x : Int, xs.foldl max x = x ∨ xs.foldl max x ∈ xs := by
  induction xs with
  | nil => intro x; exact Or.inl rfl
  | cons y ys ih =>
    intro x
    rcases ih (max x y) with h | h
    · rcases max_choice x y with h' | h'
      · left; rw [List.foldl_cons, h, h']
      · right; rw [List.foldl_cons, h, h']; exact List.mem_cons_self y ys
    · right; exact List.mem_cons_of_mem y h

theorem le_listMax_of_mem {l : List Int} {a : Int} (h : a ∈ l) : a ≤ listMax l := by
  cases l with
  | nil => cases h
  | cons x xs =>
    rcases List.mem_cons.mp h with h' | h'
    · subst h'; exact le_foldl_max xs a
    · exact mem_le_foldl_max xs x a h'

theorem listMax_mem {l : List Int} (h : l ≠ []) : listMax l ∈ l := by
  cases l with
  | nil => exact absurd rfl h
  | cons x xs =>
    rcases foldl_max_mem xs x with h' | h'
    · rw [listMax, h']; exact List.mem_cons_self x xs
    · exact List.mem_cons_of_mem x h'

theorem foldl_min_le (xs : List Int) : ∀ x : Int, xs.foldl min x ≤ x := by
  induction xs with
  | nil => intro x; exact le_refl x
  | cons y ys ih => intro x; exact le_trans (ih (min x y)) (min_le_left x y)

theorem foldl_min_le_mem (xs : List Int) :
    ∀ (x a : Int), a ∈ xs → xs.foldl min x ≤ a := by
  induction xs with
  | nil => intro x a h; cases h
  | cons y ys ih =>
    intro x a h
    rcases List.mem_cons.mp h with h' | h'
    · subst h'
      exact le_trans (foldl_min_le ys (min x a)) (min_le_right x a)
    · exact ih (min x y) a h'

theorem foldl_min_mem (xs : List Int) :
    ∀ x : Int, xs.foldl min x = x ∨ xs.foldl min x ∈ xs := by
  induction xs with
  | nil => intro x; exact Or.inl rfl
  | cons y ys ih =>
    intro x
    rcases ih (min x y) with h | h
    · rcases min_choice x y with h' | h'
      · left; rw [List.foldl_cons, h, h']
      · right; rw [List.foldl_cons, h, h']; exact List.mem_cons_self y ys
    · right; exact List.mem_cons_of_mem y h

theorem listMin_le_of_mem {l : List Int} {a : Int} (h : a ∈ l) : listMin l ≤ a := by
  cases l with
  | nil => cases h
  | cons x xs =>
    rcases List.mem_cons.mp h with h' | h'
    · subst h'; exact foldl_min_le xs a
    · exact foldl_min_le_mem xs x a h'

theorem listMin_mem {l : List Int} (h : l ≠ []) : listMin l ∈ l := by
  cases l with
  | nil => exact absurd rfl h
  | cons x xs =>
    rcases foldl_min_mem xs x with h' | h'
    · rw [listMin, h']; exact List.mem_cons_self x xs
    · exact List.mem_cons_of_mem x h'

/-- Two distinct values among the deduplicated list force a strict
min–max gap. -/
theorem listMin_lt_listMax {l : List Int} (h : 1 < l.dedup.length) :
    listMin l < listMax l := by
  obtain ⟨x, y, zs, hxy⟩ : ∃ x y zs, l.dedup = x :: y :: zs := by
    match hd : l.dedup with
    | [] => rw [hd] at h; simp at h
    | [x] => rw [hd] at h; simp at h
    | x :: y :: zs => exact ⟨x, y, zs, rfl⟩
  have hnd := l.nodup_dedup
  rw [hxy] at hnd
  have hne : x ≠ y := by
    intro hcontr
    exact (List.nodup_cons.mp hnd).1 (hcontr ▸ List.mem_cons_self y zs)
  have hx : x ∈ l := List.mem_dedup.mp (hxy ▸ List.mem_cons_self x (y :: zs))
  have hy : y ∈ l :=
    List.mem_dedup.mp (hxy ▸ List.mem_cons_of_mem x (List.mem_cons_self y zs))
  by_contra hle
  push_neg at hle
  have h1 : x ≤ y :=
    le_trans (le_listMax_of_mem hx) (le_trans hle (listMin_le_of_mem hy))
  have h2 : y ≤ x :=
    le_trans (le_listMax_of_mem hy) (le_trans hle (listMin_le_of_mem hx))
  exact hne (le_antisymm h1 h2)

theorem mem_walletsOf_iff {b : List Txn} {w : String} :
    w ∈ walletsOf b ↔ ∃ t ∈ b, t.wallet = w := by
  simp [walletsOf, List.mem_dedup, List.mem_map]

theorem txsOf_ne_nil {b : List Txn} {w : String} (h : w ∈ walletsOf b) :
    txsOf b w ≠ [] := by
  obtain ⟨t, ht, hw⟩ := mem_walletsOf_iff.mp h
  have : t ∈ txsOf b w := by
    simp [txsOf, List.mem_filter, ht, hw]
  exact List.ne_nil_of_mem this

theorem walletTimestamps_subset {b : List Txn} {w : String} :
    ∀ a ∈ walletTimestamps b w, a ∈ b.map (fun t => t.timestampMs) := by
  intro a ha
  simp only [walletTimestamps, txsOf, List.mem_map] at ha
  obtain ⟨t, ht, rfl⟩ := ha
  exact List.mem_map_of_mem _ (List.mem_of_mem_filter ht)

theorem lastTransaction_le_latestOverall {b : List Txn} {w : String}
    (h : w ∈ walletsOf b) : lastTransaction b w ≤ latestOverall b := by
  have hne : walletTimestamps b w ≠ [] := by
    intro hcontr
    exact txsOf_ne_nil h (List.map_eq_nil_iff.mp hcontr)
  exact le_listMax_of_mem (walletTimestamps_subset _ (listMax_mem hne))

/-! ### Lemmas about the alignment step -/

theorem hasFeature_iff_find? (row : List (String × Rat)) (c : String) :
    hasFeature row c = true ↔ (row.find? (fun p => p.1 == c)).isSome := by
  simp [hasFeature, List.any_eq_true, List.find?_isSome]

theorem find?_dropExtra (trained : List String) (c : String) (hc : c ∈ trained) :
    ∀ l : List (String × Rat),
      (dropExtraCols trained l).find? (fun p => p.1 == c) =
        l.find? (fun p => p.1 == c)
  | [] => rfl
  | p :: ps => by
    by_cases hp : trained.contains p.1 = true
    · by_cases hpc : p.1 = c
      · simp [dropExtraCols, List.filter_cons, hp, List.find?_cons, hpc, hc]
      · have hb : (p.1 == c) = false := beq_eq_false_iff_ne.mpr hpc
        simp only [dropExtraCols, List.filter_cons, hp, if_true,
          List.find?_cons, hb]
        exact find?_dropExtra trained c hc ps
    · have hb : (p.1 == c) = false := by
        refine beq_eq_false_iff_ne.mpr ?_
        intro h
        rw [h] at hp
        exact hp (List.elem_iff.mpr hc)
      simp only [dropExtraCols, List.filter_cons, hp, if_false,
        Bool.false_eq_true, List.find?_cons, hb]
      exact find?_dropExtra trained c hc ps

theorem find?_addMissing_present (trained : List String)
    (row : List (String × Rat)) (c : String) (h : hasFeature row c = true) :
    (addMissingCols trained row).find? (fun p => p.1 == c) =
      row.find? (fun p => p.1 == c) := by
  rw [addMissingCols, List.find?_append]
  obtain ⟨a, ha⟩ :=
    Option.isSome_iff_exists.mp ((hasFeature_iff_find? row c).mp h)
  rw [ha]
  rfl

theorem find?_const_map (cs : List String) (c : String) (hc : c ∈ cs) :
    (cs.map (fun d => (d, (0 : Rat)))).find? (fun p => p.1 == c) = some (c, 0) := by
  induction cs with
  | nil => cases hc
  | cons d ds ih =>
    by_cases h : d = c
    · subst h
      simp [List.find?_cons]
    · have hd : (d == c) = false := beq_eq_false_iff_ne.mpr h
      rcases List.mem_cons.mp hc with h' | h'
      · exact absurd h'.symm h
      · simp only [List.map_cons, List.find?_cons, hd]
        exact ih h'

theorem find?_addMissing_absent (trained : List String)
    (row : List (String × Rat)) (c : String) (hc : c ∈ trained)
    (h : hasFeature row c = false) :
    (addMissingCols trained row).find? (fun p => p.1 == c) = some (c, 0) := by
  rw [addMissingCols, List.find?_append]
  have hnone : row.find? (fun p => p.1 == c) = none := by
    rw [← Option.not_isSome_iff_eq_none, ← hasFeature_iff_find?, h]
    simp
  rw [hnone, Option.none_or]
  exact find?_const_map _ c (List.mem_filter.mpr ⟨hc, by simp [h]⟩)

theorem hasFeature_aligned (trained : List String) (row : List (String × Rat))
    (c : String) (hc : c ∈ trained) :
    hasFeature (dropExtraCols trained (addMissingCols trained row)) c = true := by
  rw [hasFeature_iff_find?, find?_dropExtra trained c hc]
  by_cases h : hasFeature row c = true
  · rw [find?_addMissing_present trained row c h]
    exact (hasFeature_iff_find? row c).mp h
  · rw [find?_addMissing_absent trained row c hc
      (Bool.not_eq_true _ ▸ (by simpa using h))]
    rfl

/-! ### Lemmas about the financial pivot -/

theorem actionTxs_eq_nil {b : List Txn} {w a : String}
    (h : (b.map (fun t => t.action)).contains a = false) :
    actionTxs b w a = [] := by
  rw [List.eq_nil_iff_forall_not_mem]
  intro t ht
  have h1 : t ∈ txsOf b w ∧ (t.action == a) = true := List.mem_filter.mp ht
  have h2 : t ∈ b := List.mem_of_mem_filter h1.1
  have h3 : a ∈ b.map (fun t => t.action) :=
    (beq_iff_eq.mp h1.2) ▸ List.mem_map_of_mem _ h2
  simp [h3] at h

theorem pivotSumAmount_eq (b : List Txn) (a w : String) :
    pivotSumAmount b a w = ((actionTxs b w a).map amountNumeric).sum := by
  rw [pivotSumAmount]
  split
  · rfl
  · next h =>
    rw [actionTxs_eq_nil (Bool.eq_false_iff.mpr h)]
    simp

theorem pivotCount_eq (b : List Txn) (a w : String) :
    pivotCount b a w = (actionTxs b w a).length := by
  rw [pivotCount]
  split
  · rfl
  · next h =>
    rw [actionTxs_eq_nil (Bool.eq_false_iff.mpr h)]
    simp

/-! ### Lemmas about column insertion and the rename map -/

theorem mem_addCol_self (cols : List String) (c : String) : c ∈ addCol cols c := by
  rw [addCol]
  split
  · next h => exact List.elem_iff.mp h
  · exact List.mem_append_right _ (List.mem_singleton.mpr rfl)

theorem mem_addCol_of_mem {cols : List String} {d : String} (c : String)
    (h : d ∈ cols) : d ∈ addCol cols c := by
  rw [addCol]
  split
  · exact h
  · exact List.mem_append_left _ h

theorem hasCol_iff (df : Frame) (c : String) :
    df.hasCol c = true ↔ ∃ p ∈ df, p.1 = c := by
  simp [Frame.hasCol, List.mem_map]


/-! ### Claims -/

/-- C1 (counterexample): with a non-empty, schema-valid batch and a store
whose scaler artifact cannot be loaded, `generate_wallet_scores_from_json`
does NOT propagate an error to the caller: it returns the ordinary empty
score dictionary `{}` (`Except.ok []`), absorbing the failure into a
normal return value. -/
theorem c1_artifact_failure_counterexample :
    exampleStoreMissingScaler.scaler = none ∧
    exampleBatch ≠ [] ∧
    generate_wallet_scores_from_json (fun _ => 0) exampleFrame exampleBatch
      exampleStoreMissingScaler = Except.ok [] :=
  ⟨rfl, by simp [exampleBatch], rfl⟩

/-- C1 (amended): if any of the five artifacts fails to load, the scoring
invocation is aborted — no features are engineered and no scores emitted —
but the failure is reported as the ordinary empty dictionary (a normal
return value, after a printed message naming the missing artifact), not as
an error raised to the caller. -/
theorem c1_artifact_failure_returns_empty (rsqrt : Rat → Rat) (df : Frame)
    (txns : List Txn) (store : ArtifactStore) (dfn : Frame)
    (ht : txns ≠ []) (hn : normalizeFrame df = .ok dfn)
    (hl : loadBundle store = none) :
    generate_wallet_scores_from_json rsqrt df txns store = .ok [] := by
  cases txns with
  | nil => exact absurd rfl ht
  | cons t ts =>
    simp [generate_wallet_scores_from_json, hn, hl]

/-- C1 witness: the amended theorem evaluated at a concrete batch and a
store missing the PCA artifact. -/
theorem c1_artifact_failure_witness :
    generate_wallet_scores_from_json (fun _ => 0) exampleFrame exampleBatch
      exampleStoreMissingPCA = Except.ok [] :=
  c1_artifact_failure_returns_empty (fun _ => 0) exampleFrame exampleBatch
    exampleStoreMissingPCA _ (by simp [exampleBatch]) rfl rfl

theorem renameUserWallet_hasCol (df : Frame)
    (hUW : df.hasCol "userWallet" = true) :
    (renameUserWallet df).hasCol "walletaddress" = true ∧
    (renameUserWallet df).hasCol "userWallet" = false := by
  constructor
  · obtain ⟨p, hp, hfst⟩ := (hasCol_iff df "userWallet").mp hUW
    refine (hasCol_iff _ _).mpr ⟨("walletaddress", p.2), ?_, rfl⟩
    refine List.mem_map.mpr ⟨p, hp, ?_⟩
    simp [hfst]
  · rw [Bool.eq_false_iff]
    intro hcontr
    obtain ⟨q, hq, hfst⟩ := (hasCol_iff _ "userWallet").mp hcontr
    obtain ⟨p, _, hmap⟩ := List.mem_map.mp hq
    by_cases h : p.1 = "userWallet"
    · rw [← hmap] at hfst
      simp [h] at hfst
    · rw [← hmap] at hfst
      simp [beq_eq_false_iff_ne.mpr h] at hfst
      exact h (hfst ▸ rfl)

/-- C6: the wallet-identity fix follows the exact resolution order: (a) an
existing `walletaddress` column is used unchanged; (b) else an existing
`userWallet` column is renamed to it (afterwards `walletaddress` exists
and `userWallet` is gone); (c) else an existing `from` column is copied
into it (the `from` column itself survives — a copy, not a rename); (d)
else the invocation fails with the schema `KeyError`. -/
theorem c6_wallet_identity_resolution (df : Frame) :
    (df.hasCol "walletaddress" = true → normalizeFrame df = .ok df) ∧
    (df.hasCol "walletaddress" = false → df.hasCol "userWallet" = true →
      normalizeFrame df = .ok (renameUserWallet df) ∧
      (renameUserWallet df).hasCol "walletaddress" = true ∧
      (renameUserWallet df).hasCol "userWallet" = false) ∧
    (df.hasCol "walletaddress" = false → df.hasCol "userWallet" = false →
      df.hasCol "from" = true →
      normalizeFrame df = .ok (df ++ [("walletaddress",
        (Option.map Prod.snd (df.find? (fun p => p.1 == "from"))).getD [])]) ∧
      (df ++ [("walletaddress",
        (Option.map Prod.snd (df.find? (fun p => p.1 == "from"))).getD
          [])]).hasCol "from" = true) ∧
    (df.hasCol "walletaddress" = false → df.hasCol "userWallet" = false →
      df.hasCol "from" = false →
      normalizeFrame df = .error
        "Input JSON must contain walletaddress, userWallet, or from column to identify wallets.") := by
  refine ⟨?_, ?_, ?_, ?_⟩
  · intro h
    simp [normalizeFrame, h]
  · intro h1 h2
    refine ⟨?_, renameUserWallet_hasCol df h2⟩
    simp [normalizeFrame, renameUserWallet, h1, h2]
  · intro h1 h2 h3
    constructor
    · simp [normalizeFrame, h1, h2, h3]
    · obtain ⟨p, hp, hfst⟩ := (hasCol_iff df "from").mp h3
      exact (hasCol_iff _ _).mpr ⟨p, List.mem_append_left _ hp, hfst⟩
  · intro h1 h2 h3
    simp [normalizeFrame, h1, h2, h3]

/-- C6 witness: the rename branch evaluated on a concrete frame. -/
theorem c6_wallet_identity_witness :
    normalizeFrame [("userWallet", ["0xA"]), ("timestamp", ["0"])] =
      .ok [("walletaddress", ["0xA"]), ("timestamp", ["0"])] :=
  ((c6_wallet_identity_resolution
    [("userWallet", ["0xA"]), ("timestamp", ["0"])]).2.1
    (by decide) (by decide)).1

/-- C9 (counterexample): `engineer_wallet_features` mutates the frame it is
given.  On a batch with the documented raw columns, the frame ends up with
`userWallet` renamed to `walletaddress` and four derived working columns
appended — it is not left unchanged. -/
theorem c9_aggregator_mutation_counterexample :
    engineerBatchColumns ["userWallet", "timestamp", "action", "actionData"] =
      ["walletaddress", "timestamp", "action", "actionData", "date",
       "amount_extracted", "token_extracted", "amount_numeric"] ∧
    engineerBatchColumns ["userWallet", "timestamp", "action", "actionData"] ≠
      ["userWallet", "timestamp", "action", "actionData"] := by
  constructor
  · decide
  · decide

/-- C9 (amended): the aggregator mutates its own argument in place — it
always installs the working columns `date`, `amount_extracted`,
`token_extracted`, `amount_numeric` and renames `userWallet` when present —
but the scoring pipeline passes it a defensive copy, so the frame the
pipeline retains is exactly what the identity fix produced, and the
feature result is a function of the input batch alone. -/
theorem c9_aggregator_mutates_but_copy_shields (cols : List String)
    (df dfn : Frame) :
    "date" ∈ engineerBatchColumns cols ∧
    "amount_extracted" ∈ engineerBatchColumns cols ∧
    "token_extracted" ∈ engineerBatchColumns cols ∧
    "amount_numeric" ∈ engineerBatchColumns cols ∧
    ("userWallet" ∈ cols → "walletaddress" ∈ engineerBatchColumns cols) ∧
    (normalizeFrame df = .ok dfn →
      pipelineFrameAfterEngineering df = .ok dfn) := by
  refine ⟨?_, ?_, ?_, ?_, ?_, ?_⟩
  · exact mem_addCol_of_mem _ (mem_addCol_of_mem _ (mem_addCol_of_mem _
      (mem_addCol_self _ _)))
  · exact mem_addCol_of_mem _ (mem_addCol_of_mem _ (mem_addCol_self _ _))
  · exact mem_addCol_of_mem _ (mem_addCol_self _ _)
  · exact mem_addCol_self _ _
  · intro h
    have h1 : cols.contains "userWallet" = true := List.elem_iff.mpr h
    have h2 : "walletaddress" ∈
        cols.map (fun c => if c == "userWallet" then "walletaddress" else c) :=
      List.mem_map.mpr ⟨"userWallet", h, by simp⟩
    simp only [engineerBatchColumns, h1, if_true]
    exact mem_addCol_of_mem _ (mem_addCol_of_mem _ (mem_addCol_of_mem _
      (mem_addCol_of_mem _ (mem_addCol_of_mem _ h2))))
  · intro h
    simp [pipelineFrameAfterEngineering, h, Except.map]

/-- C9 witness: the amended theorem evaluated at a concrete raw column
list and frame. -/
theorem c9_aggregator_mutation_witness :
    "walletaddress" ∈
      engineerBatchColumns ["userWallet", "timestamp", "action", "actionData"] ∧
    pipelineFrameAfterEngineering exampleFrame =
      .ok (renameUserWallet exampleFrame) :=
  ⟨(c9_aggregator_mutates_but_copy_shields
      ["userWallet", "timestamp", "action", "actionData"] [] []).2.2.2.2.1
      (by decide),
   (c9_aggregator_mutates_but_copy_shields [] exampleFrame
      (renameUserWallet exampleFrame)).2.2.2.2.2 rfl⟩

/-- C2 (counterexample): the aggregator's output schema has total and count
columns for all five action kinds, but NO average column for
`liquidationcall` (and the redeem/liquidation totals carry the shortened
names `total_redeem_amount` / `total_liquidation_call_amount`, not the
uniform `total_<action>_amount` pattern). -/
theorem c2_no_liquidation_average_counterexample :
    (engineer_wallet_features_row (fun _ => 0) exampleBatch "0xA").map Prod.fst =
      walletFeatureColumns ∧
    "avg_liquidationcall_amount" ∉ walletFeatureColumns ∧
    "avg_liquidation_call_amount" ∉ walletFeatureColumns ∧
    "total_redeemunderlying_amount" ∉ walletFeatureColumns ∧
    "avg_redeemunderlying_amount" ∉ walletFeatureColumns ∧
    "total_liquidationcall_amount" ∉ walletFeatureColumns :=
  ⟨engineer_wallet_features_row_columns _ _ _, by decide, by decide,
   by decide, by decide, by decide⟩

/-- C2 (amended): for every action kind the output holds the pivot's total
(the sum of that action's numeric amounts over the wallet's transactions)
and count (that action's transaction count), both 0 when the action is
absent from the batch; average columns exist only for deposit, borrow,
repay and redeemunderlying, each equal to total/count when the count is
positive and 0 otherwise; the five totals and counts and these four
averages are present in the schema under the source's names, and no
average column exists for liquidationcall. -/
theorem c2_financial_columns (b : List Txn) (w a : String) :
    pivotSumAmount b a w = ((actionTxs b w a).map amountNumeric).sum ∧
    pivotCount b a w = (actionTxs b w a).length ∧
    (countDeposit b w = 0 → avgDepositAmount b w = 0) ∧
    (0 < countDeposit b w →
      avgDepositAmount b w * (countDeposit b w : Rat) = totalDepositAmount b w) ∧
    (countBorrow b w = 0 → avgBorrowAmount b w = 0) ∧
    (0 < countBorrow b w →
      avgBorrowAmount b w * (countBorrow b w : Rat) = totalBorrowAmount b w) ∧
    (countRepay b w = 0 → avgRepayAmount b w = 0) ∧
    (0 < countRepay b w →
      avgRepayAmount b w * (countRepay b w : Rat) = totalRepayAmount b w) ∧
    (countRedeemunderlying b w = 0 → avgRedeemAmount b w = 0) ∧
    (0 < countRedeemunderlying b w →
      avgRedeemAmount b w * (countRedeemunderlying b w : Rat) =
        totalRedeemAmount b w) ∧
    (["total_deposit_amount", "total_borrow_amount", "total_repay_amount",
      "total_redeem_amount", "total_liquidation_call_amount",
      "count_deposit", "count_borrow", "count_repay",
      "count_redeemunderlying", "count_liquidationcall",
      "avg_deposit_amount", "avg_borrow_amount", "avg_repay_amount",
      "avg_redeem_amount"].all
        (fun c => walletFeatureColumns.contains c) = true) ∧
    walletFeatureColumns.contains "avg_liquidationcall_amount" = false ∧
    walletFeatureColumns.contains "avg_liquidation_call_amount" = false := by
  refine ⟨pivotSumAmount_eq b a w, pivotCount_eq b a w,
    ?_, ?_, ?_, ?_, ?_, ?_, ?_, ?_, by decide, by decide, by decide⟩
  · intro h
    simp [avgDepositAmount, h]
  · intro h
    have hne : ((countDeposit b w : Nat) : Rat) ≠ 0 := by
      exact_mod_cast Nat.pos_iff_ne_zero.mp h
    simp only [avgDepositAmount, if_pos h]
    exact div_mul_cancel₀ _ hne
  · intro h
    simp [avgBorrowAmount, h]
  · intro h
    have hne : ((countBorrow b w : Nat) : Rat) ≠ 0 := by
      exact_mod_cast Nat.pos_iff_ne_zero.mp h
    simp only [avgBorrowAmount, if_pos h]
    exact div_mul_cancel₀ _ hne
  · intro h
    simp [avgRepayAmount, h]
  · intro h
    have hne : ((countRepay b w : Nat) : Rat) ≠ 0 := by
      exact_mod_cast Nat.pos_iff_ne_zero.mp h
    simp only [avgRepayAmount, if_pos h]
    exact div_mul_cancel₀ _ hne
  · intro h
    simp [avgRedeemAmount, h]
  · intro h
    have hne : ((countRedeemunderlying b w : Nat) : Rat) ≠ 0 := by
      exact_mod_cast Nat.pos_iff_ne_zero.mp h
    simp only [avgRedeemAmount, if_pos h]
    exact div_mul_cancel₀ _ hne

/-- C2 witness: the amended theorem evaluated at the example batch — the
deposit average times the deposit count recovers the deposit total. -/
theorem c2_financial_columns_witness :
    avgDepositAmount exampleBatch "0xA" * (countDeposit exampleBatch "0xA" : Rat) =
      totalDepositAmount exampleBatch "0xA" :=
  (c2_financial_columns exampleBatch "0xA" "deposit").2.2.2.1 (by decide)

/-- C3: aligning any feature row against any trained column list succeeds
and yields exactly the trained columns in the trained order; a trained
column the row lacks is filled with 0.0 (`rowValue` of an absent column),
a row column outside the trained list is dropped, and a present column
keeps its value. -/
theorem c3_feature_schema_alignment (trained : List String)
    (row : List (String × Rat)) :
    alignFeatures trained row =
      .ok (trained.map (fun c => (c, rowValue row c))) ∧
    (trained.map (fun c => (c, rowValue row c))).map Prod.fst = trained := by
  have hall : trained.all
      (fun c => hasFeature (dropExtraCols trained (addMissingCols trained row)) c) = true := by
    rw [List.all_eq_true]
    intro c hc
    exact hasFeature_aligned trained row c hc
  constructor
  · simp only [alignFeatures, selectCols, hall, if_true]
    congr 1
    refine List.map_congr_left ?_
    intro c hc
    by_cases h : hasFeature row c = true
    · rw [find?_dropExtra trained c hc, find?_addMissing_present trained row c h]
      rfl
    · have hf : hasFeature row c = false := Bool.eq_false_iff.mpr h
      rw [find?_dropExtra trained c hc,
        find?_addMissing_absent trained row c hc hf]
      have hnone : row.find? (fun p => p.1 == c) = none := by
        rw [← Option.not_isSome_iff_eq_none, ← hasFeature_iff_find?, hf]
        simp
      simp [rowValue, hnone]
  · have h1 : List.map (Prod.fst ∘ fun c => (c, rowValue row c)) trained =
        List.map id trained :=
      List.map_congr_left (fun a _ => rfl)
    rw [List.map_map, h1, List.map_id]

/-- C7: recency is the batch-global latest timestamp minus the wallet's
latest, in whole days; it is non-negative for every wallet of the batch,
and exactly 0 for a wallet holding the batch-global latest timestamp. -/
theorem c7_recency_nonneg_and_zero_at_latest (b : List Txn) (w : String)
    (hb : b ≠ []) (hw : w ∈ walletsOf b) :
    lastTransactionRecencyDays b w =
      (latestOverall b - lastTransaction b w).fdiv msPerDay ∧
    0 ≤ lastTransactionRecencyDays b w ∧
    ((∃ t ∈ txsOf b w, t.timestampMs = latestOverall b) →
      lastTransactionRecencyDays b w = 0) := by
  have hle : lastTransaction b w ≤ latestOverall b :=
    lastTransaction_le_latestOverall hw
  refine ⟨rfl, ?_, ?_⟩
  · exact Int.fdiv_nonneg (by omega) (by norm_num [msPerDay])
  · rintro ⟨t, ht, hts⟩
    have h1 : latestOverall b ≤ lastTransaction b w := by
      rw [← hts]
      exact le_listMax_of_mem (List.mem_map_of_mem _ ht)
    have h2 : latestOverall b - lastTransaction b w = 0 := by omega
    rw [lastTransactionRecencyDays, h2]
    exact Int.zero_fdiv _

/-- C7 witness: in the example batch, wallet `0xB` holds the global latest
timestamp and its recency is 0; both conjuncts evaluated concretely. -/
theorem c7_recency_witness :
    0 ≤ lastTransactionRecencyDays exampleBatch "0xB" ∧
    lastTransactionRecencyDays exampleBatch "0xB" = 0 :=
  ⟨(c7_recency_nonneg_and_zero_at_latest exampleBatch "0xB"
      (by simp [exampleBatch]) (by decide)).2.1,
   (c7_recency_nonneg_and_zero_at_latest exampleBatch "0xB"
      (by simp [exampleBatch]) (by decide)).2.2
      ⟨exTxB, by decide, by decide⟩⟩

/-- C8: a wallet's duration is the max−min date span plus one when it has
more than one distinct date and exactly 1 with a single distinct date;
hence it is always at least 1, and `transactions_per_day` is the genuine
finite quotient (its product with the duration recovers the count). -/
theorem c8_duration_days_bounds (b : List Txn) (w : String)
    (hw : w ∈ walletsOf b) :
    (1 < activeDays b w →
      durationDays b w =
        listMax (walletDates b w) - listMin (walletDates b w) + 1) ∧
    (activeDays b w = 1 → durationDays b w = 1) ∧
    1 ≤ durationDays b w ∧
    transactionsPerDay b w =
      (totalTransactions b w : Rat) / (durationDays b w : Rat) ∧
    transactionsPerDay b w * (durationDays b w : Rat) =
      (totalTransactions b w : Rat) := by
  have hdur : 1 ≤ durationDays b w := by
    rw [durationDays]
    split
    · next h =>
      have := listMin_lt_listMax (l := walletDates b w) h
      omega
    · exact le_refl 1
  refine ⟨?_, ?_, hdur, rfl, ?_⟩
  · intro h
    rw [activeDays] at h
    rw [durationDays, if_pos h]
  · intro h
    rw [activeDays] at h
    rw [durationDays, if_neg (by omega)]
  · have hne : ((durationDays b w : Int) : Rat) ≠ 0 := by
      exact_mod_cast (by omega : durationDays b w ≠ 0)
    rw [transactionsPerDay]
    exact div_mul_cancel₀ _ hne

/-- C8 witness: the bounds evaluated for wallet `0xA` of the example
batch. -/
theorem c8_duration_days_witness :
    1 ≤ durationDays exampleBatch "0xA" ∧
    transactionsPerDay exampleBatch "0xA" *
      (durationDays exampleBatch "0xA" : Rat) =
      (totalTransactions exampleBatch "0xA" : Rat) :=
  ⟨(c8_duration_days_bounds exampleBatch "0xA" (by decide)).2.2.1,
   (c8_duration_days_bounds exampleBatch "0xA" (by decide)).2.2.2.2⟩

/-- C10: every wallet of the feature table has at least one transaction,
so `total_transactions ≥ 1` and `transactions_per_day` is strictly
positive. -/
theorem c10_rows_have_transactions (b : List Txn) (w : String)
    (hw : w ∈ walletsOf b) :
    1 ≤ totalTransactions b w ∧ 0 < transactionsPerDay b w := by
  have hne : txsOf b w ≠ [] := txsOf_ne_nil hw
  have htot : 0 < totalTransactions b w := by
    rw [totalTransactions]
    exact List.length_pos.mpr hne
  have hdur : 1 ≤ durationDays b w := by
    rw [durationDays]
    split
    · next h =>
      have := listMin_lt_listMax (l := walletDates b w) h
      omega
    · exact le_refl 1
  refine ⟨htot, ?_⟩
  rw [transactionsPerDay]
  apply div_pos
  · exact_mod_cast htot
  · exact_mod_cast (by omega : (0 : Int) < durationDays b w)

/-- C10 witness: evaluated for wallet `0xA` of the example batch. -/
theorem c10_rows_have_transactions_witness :
    1 ≤ totalTransactions exampleBatch "0xA" ∧
    0 < transactionsPerDay exampleBatch "0xA" :=
  c10_rows_have_transactions exampleBatch "0xA" (by decide)

/-- `round` of an exact integer is that integer. -/
theorem pyRound_intCast (n : Int) : pyRound ((n : Int) : Rat) = n := by
  have hf : ((n : Rat)).floor = n := rfl
  rw [pyRound]
  norm_num [hf]

/-- C5 (counterexample): the unconditional claim fails when the trained
column list is empty.  With a zero-component PCA and zero trained columns,
wallet `0xA` is present in the aligned input, yet the
`empty / shape[1] == 0` guard (line 249 of the source) returns the empty
dict before the neutral-score branch is reached: `0xA` is assigned
nothing, not 500. -/
theorem c5_degenerate_artifacts_counterexample :
    exampleBundleNoCols.pca.components = [] ∧
    exampleBundleNoCols.trainedFeatureColumns = [] ∧
    scoreAligned exampleBundleNoCols [("0xA", ([] : List Rat))] = [] ∧
    scoreAligned exampleBundleNoCols [("0xA", ([] : List Rat))] ≠
      [("0xA", (500 : Int))] :=
  ⟨rfl, rfl, rfl, by decide⟩

/-- C5 (amended): if the trained PCA retained zero components, or the
persisted k-means model is `None`, and the trained feature-column list is
non-empty (with zero trained columns the source returns the empty dict at
the line-249 guard before reaching either branch), then every wallet of
the aligned input is assigned the neutral score 500. -/
theorem c5_degenerate_artifacts_neutral_scores (bundle : Bundle)
    (rows : List (String × List Rat))
    (hcols : bundle.trainedFeatureColumns ≠ [])
    (h : bundle.pca.components = [] ∨ bundle.kmeansModel = none) :
    scoreAligned bundle rows = rows.map (fun p => (p.1, (500 : Int))) := by
  cases rows with
  | nil => simp [scoreAligned]
  | cons r rs =>
    have hc : bundle.trainedFeatureColumns.isEmpty = false := by
      simpa [List.isEmpty_iff] using hcols
    rcases h with h | h
    · simp [scoreAligned, hc, PCAT.nComponents, h]
    · by_cases hn : bundle.pca.nComponents = 0
      · simp [scoreAligned, hc, hn]
      · simp [scoreAligned, hc, hn, h]

/-- C5 witness: a zero-component bundle evaluated on a one-wallet aligned
input. -/
theorem c5_degenerate_artifacts_witness :
    scoreAligned exampleBundle0 [("0xA", [(1 : Rat)])] = [("0xA", (500 : Int))] :=
  c5_degenerate_artifacts_neutral_scores exampleBundle0 [("0xA", [(1 : Rat)])]
    (by decide) (Or.inl rfl)

/-- C4: with a k-means model present, every wallet's score is obtained by
looking its own predicted cluster up in the cluster-score table — the
interval midpoint `round((min+max)/2)` when the id is mapped, the neutral
500 when it is not — independently of the other wallets; on the spec's
example table, cluster 1 yields 700 and the unmapped cluster 2 yields
500. -/
theorem c4_cluster_score_mapping (bundle : Bundle)
    (rows : List (String × List Rat)) (km : KMeansT)
    (hcols : bundle.trainedFeatureColumns ≠ [])
    (hpc : bundle.pca.components ≠ [])
    (hk : bundle.kmeansModel = some km) :
    scoreAligned bundle rows = rows.map (fun p =>
      (p.1, assignScore bundle.clusterScoreMapping
        (km.predict (bundle.pca.transform (bundle.scaler.transform p.2))))) ∧
    (∀ (table : List (Nat × ScoreRange)) (cid : Nat) (r : Nat × ScoreRange),
      table.find? (fun q => q.1 == cid) = some r →
      assignScore table cid = pyRound (((r.2.min : Rat) + (r.2.max : Rat)) / 2)) ∧
    (∀ (table : List (Nat × ScoreRange)) (cid : Nat),
      table.find? (fun q => q.1 == cid) = none → assignScore table cid = 500) ∧
    assignScore exampleClusterTable 1 = 700 ∧
    assignScore exampleClusterTable 2 = 500 := by
  refine ⟨?_, ?_, ?_, ?_, ?_⟩
  · cases rows with
    | nil => simp [scoreAligned]
    | cons r rs =>
      have hc : bundle.trainedFeatureColumns.isEmpty = false := by
        simpa [List.isEmpty_iff] using hcols
      have hn : bundle.pca.nComponents ≠ 0 := by
        simpa [PCAT.nComponents, List.length_eq_zero] using hpc
      simp [scoreAligned, hc, hn, hk]
  · intro table cid r h
    rw [assignScore, h]
  · intro table cid h
    rw [assignScore, h]
  · show pyRound (((((600 : Int) : Rat)) + (((800 : Int) : Rat))) / 2) = 700
    have harg : ((((600 : Int) : Rat)) + (((800 : Int) : Rat))) / 2 =
        ((700 : Int) : Rat) := by norm_num
    rw [harg, pyRound_intCast]
  · rw [assignScore,
      (show exampleClusterTable.find? (fun p => p.1 == 2) = none from rfl)]

/-- C4 witness: the mapped and unmapped lookups of the spec's example
table, via the theorem at a concrete bundle. -/
theorem c4_cluster_score_mapping_witness :
    assignScore exampleClusterTable 1 = 700 ∧
    assignScore exampleClusterTable 2 = 500 :=
  ⟨(c4_cluster_score_mapping exampleBundleKM [] exampleKM (by decide)
      (by decide) rfl).2.2.2.1,
   (c4_cluster_score_mapping exampleBundleKM [] exampleKM (by decide)
      (by decide) rfl).2.2.2.2⟩
